import Mathlib

/-!
Shallow embedding of the Game of Life engine (`src/lib.rs` of the `gol`
crate) and proofs of the specified properties.

The Rust code stores the two boards as `Vec<Vec<bool>>` where the outer
vector holds the columns (x values) and the inner vector the rows
(y values).  We model a board as `List (List Bool)`.  Indexed reads
(`board[x][y]`) are modelled with `get2` (out-of-range reads yield
`false`; in all verified uses the index is proved in range so the
default is never observed).  Indexed writes are modelled with `set2`
(built on `List.set`, a no-op out of range; again every verified use is
in range).  The seeding operations `set` / `clear_and_set` can panic in
Rust, either at their explicit bounds check or at the indexed write;
those two panics are modelled explicitly by `SeedError`.
-/

namespace Gol

/-- 2-D read `board[x][y]`; `false` when out of range. -/
def get2 (b : List (List Bool)) (x y : Nat) : Bool :=
  ((b.getD x []).getD y false)

/-- 2-D write `board[x][y] = v`; no-op when out of range. -/
def set2 (b : List (List Bool)) (x y : Nat) (v : Bool) : List (List Bool) :=
  b.set x ((b.getD x []).set y v)

/-- `struct BoardSize { x_size: usize, y_size: usize }` -/
structure BoardSize where
  x_size : Nat
  y_size : Nat
deriving DecidableEq, Repr

/-- `BoardSize::top_left`: translate (-1, -1) with toroidal wrap. -/
def BoardSize.top_left (s : BoardSize) (x y : Nat) : Nat × Nat :=
  (if x = 0 then s.x_size - 1 else x - 1,
   if y = 0 then s.y_size - 1 else y - 1)

/-- `BoardSize::top`: translate (0, -1) with toroidal wrap. -/
def BoardSize.top (s : BoardSize) (x y : Nat) : Nat × Nat :=
  (x, if y = 0 then s.y_size - 1 else y - 1)

/-- `BoardSize::top_right`: translate (1, -1) with toroidal wrap. -/
def BoardSize.top_right (s : BoardSize) (x y : Nat) : Nat × Nat :=
  (if x = s.x_size - 1 then 0 else x + 1,
   if y = 0 then s.y_size - 1 else y - 1)

/-- `BoardSize::left`: translate (-1, 0) with toroidal wrap. -/
def BoardSize.left (s : BoardSize) (x y : Nat) : Nat × Nat :=
  (if x = 0 then s.x_size - 1 else x - 1, y)

/-- `BoardSize::right`: translate (1, 0) with toroidal wrap. -/
def BoardSize.right (s : BoardSize) (x y : Nat) : Nat × Nat :=
  (if x = s.x_size - 1 then 0 else x + 1, y)

/-- `BoardSize::bottom_left`: translate (-1, 1) with toroidal wrap. -/
def BoardSize.bottom_left (s : BoardSize) (x y : Nat) : Nat × Nat :=
  (if x = 0 then s.x_size - 1 else x - 1,
   if y = s.y_size - 1 then 0 else y + 1)

/-- `BoardSize::bottom`: translate (0, 1) with toroidal wrap. -/
def BoardSize.bottom (s : BoardSize) (x y : Nat) : Nat × Nat :=
  (x, if y = s.y_size - 1 then 0 else y + 1)

/-- `BoardSize::bottom_right`: translate (1, 1) with toroidal wrap. -/
def BoardSize.bottom_right (s : BoardSize) (x y : Nat) : Nat × Nat :=
  (if x = s.x_size - 1 then 0 else x + 1,
   if y = s.y_size - 1 then 0 else y + 1)

/-- `struct Game { size, previous, current }` -/
structure Game where
  size : BoardSize
  previous : List (List Bool)
  current : List (List Bool)
deriving DecidableEq, Repr

/-- `make_board`: `x_size` columns, each a column of `y_size` `false`s. -/
def make_board (x_size y_size : Nat) : List (List Bool) :=
  List.replicate x_size (List.replicate y_size false)

/-- `clear_board`: set every cell to false, in place. -/
def clear_board (board : List (List Bool)) : List (List Bool) :=
  board.map (fun col => col.map (fun _ => false))

/-- `Game::new`: build a new, empty game board. -/
def Game.new (x_size y_size : Nat) : Game :=
  { size := { x_size := x_size, y_size := y_size },
    previous := make_board x_size y_size,
    current := make_board x_size y_size }

/-- The running total `live_neighbors` computed by `Game::is_live`:
one indicator per toroidal neighbor, read from `previous`. -/
def Game.live_neighbors (g : Game) (x y : Nat) : Nat :=
  (if get2 g.previous (g.size.top_left x y).1 (g.size.top_left x y).2 then 1 else 0) +
  (if get2 g.previous (g.size.top x y).1 (g.size.top x y).2 then 1 else 0) +
  (if get2 g.previous (g.size.top_right x y).1 (g.size.top_right x y).2 then 1 else 0) +
  (if get2 g.previous (g.size.left x y).1 (g.size.left x y).2 then 1 else 0) +
  (if get2 g.previous (g.size.right x y).1 (g.size.right x y).2 then 1 else 0) +
  (if get2 g.previous (g.size.bottom_left x y).1 (g.size.bottom_left x y).2 then 1 else 0) +
  (if get2 g.previous (g.size.bottom x y).1 (g.size.bottom x y).2 then 1 else 0) +
  (if get2 g.previous (g.size.bottom_right x y).1 (g.size.bottom_right x y).2 then 1 else 0)

/-- `Game::is_live`: the transition rule, evaluated against `previous`. -/
def Game.is_live (g : Game) (x y : Nat) : Bool :=
  match get2 g.previous x y, g.live_neighbors x y with
  | true, 0 | true, 1 => false -- live with <2 neighbors dies
  | true, 2 | true, 3 => true  -- live with 2 or 3 neighbors lives
  | false, 3 => true           -- dead with 3 neighbors lives
  | _, _ => false              -- everything else dies

/-- The inner loop of `Game::iterate`: for `y in 0..m`,
`self.current[x][y] = self.is_live(x, y)`. -/
def fillRow (x : Nat) (g : Game) (m : Nat) : Game :=
  (List.range m).foldl
    (fun g y => { g with current := set2 g.current x y (g.is_live x y) }) g

/-- The outer loop of `Game::iterate`: for `x in 0..n`, run the inner loop
over `0..self.size.y_size`. -/
def fillAll (g : Game) (n : Nat) : Game :=
  (List.range n).foldl (fun g x => fillRow x g g.size.y_size) g

/-- `Game::iterate`: swap the boards, clear the (new) current board, then
repopulate it cell by cell from `is_live`. -/
def Game.iterate (g : Game) : Game :=
  let g := { g with previous := g.current, current := g.previous }
  let g := { g with current := clear_board g.current }
  fillAll g g.size.x_size

/-- `Game::run`: call `iterate` the given number of times. -/
def Game.run (g : Game) : Nat → Game
  | 0 => g
  | n + 1 => (g.iterate).run n

/-- `Game::clear`: clear both boards. -/
def Game.clear (g : Game) : Game :=
  { g with current := clear_board g.current,
           previous := clear_board g.previous }

/-- The two panics the Rust seeding loop can hit: the explicit
`panic!("unexpected input coordinate")` of the bounds check, or the
implicit index-out-of-bounds panic of `self.current[x][y] = true`. -/
inductive SeedError where
  | validation
  | index
deriving DecidableEq, Repr

/-- The seeding loop shared by `Game::set` and `Game::clear_and_set`:
for each pair, panic if `x > x_size || y > y_size`, otherwise perform the
indexed write (which itself panics when the index is out of bounds).
Returns the board as mutated so far together with the panic, if any. -/
def setPairs (size : BoardSize) :
    List (List Bool) → List (Nat × Nat) → List (List Bool) × Option SeedError
  | cur, [] => (cur, none)
  | cur, (x, y) :: rest =>
    if x > size.x_size || y > size.y_size then
      (cur, some SeedError.validation)
    else if x < cur.length && y < (cur.getD x []).length then
      setPairs size (set2 cur x y true) rest
    else
      (cur, some SeedError.index)

/-- `Game::set`: mark each given coordinate alive in `current`. -/
def Game.set (g : Game) (pairs : List (Nat × Nat)) : Game × Option SeedError :=
  let r := setPairs g.size g.current pairs
  ({ g with current := r.1 }, r.2)

/-- `Game::clear_and_set`: clear both boards, then mark each given
coordinate alive in `current`. -/
def Game.clear_and_set (g : Game) (pairs : List (Nat × Nat)) : Game × Option SeedError :=
  Game.set { g with current := clear_board g.current,
                    previous := clear_board g.previous } pairs

/-- `Game::cell` used as a mutable handle: write one cell of `current`. -/
def Game.cell_set (g : Game) (x y : Nat) (v : Bool) : Game :=
  { g with current := set2 g.current x y v }

/-- `Game::cell` used as a read of one cell of `current`. -/
def Game.cell_get (g : Game) (x y : Nat) : Bool :=
  get2 g.current x y

/-- `Game::x_size` / `Game::y_size` (`dimensions()`). -/
def Game.dimensions (g : Game) : Nat × Nat :=
  (g.size.x_size, g.size.y_size)

/-! ### Specification-side definitions (from the spec's words) -/

/-- The B3/S23 rule as the spec states it: survival on a live cell with
2 or 3 live neighbors, birth on a dead cell with exactly 3. -/
def b3s23 (alive : Bool) (n : Nat) : Bool :=
  (alive && (n == 2 || n == 3)) || (!alive && (n == 3))

/-- Spec wrap rule, decrementing axis: from 0 wrap to `extent - 1`,
otherwise subtract 1. -/
def wrap_dec (extent v : Nat) : Nat :=
  if v = 0 then extent - 1 else v - 1

/-- Spec wrap rule, incrementing axis: from `extent - 1` wrap to 0,
otherwise add 1. -/
def wrap_inc (extent v : Nat) : Nat :=
  if v = extent - 1 then 0 else v + 1

/-- Neighbor count of `(x, y)` in board `b` under size `s`: the number of
the 8 toroidal neighbor positions that hold a live cell in `b`. -/
def neighbor_count (s : BoardSize) (b : List (List Bool)) (x y : Nat) : Nat :=
  (if get2 b (s.top_left x y).1 (s.top_left x y).2 then 1 else 0) +
  (if get2 b (s.top x y).1 (s.top x y).2 then 1 else 0) +
  (if get2 b (s.top_right x y).1 (s.top_right x y).2 then 1 else 0) +
  (if get2 b (s.left x y).1 (s.left x y).2 then 1 else 0) +
  (if get2 b (s.right x y).1 (s.right x y).2 then 1 else 0) +
  (if get2 b (s.bottom_left x y).1 (s.bottom_left x y).2 then 1 else 0) +
  (if get2 b (s.bottom x y).1 (s.bottom x y).2 then 1 else 0) +
  (if get2 b (s.bottom_right x y).1 (s.bottom_right x y).2 then 1 else 0)

/-- A board has `w` columns of `h` cells each. -/
def board_shape (w h : Nat) (b : List (List Bool)) : Prop :=
  b.length = w ∧ ∀ col ∈ b, col.length = h

instance (w h : Nat) (b : List (List Bool)) : Decidable (board_shape w h b) := by
  unfold board_shape; infer_instance

/-- Every cell of the board is dead. -/
def all_dead (b : List (List Bool)) : Prop :=
  ∀ x y, get2 b x y = false

/-! ### Basic lemmas about the board primitives -/

theorem live_neighbors_eq_neighbor_count (g : Game) (x y : Nat) :
    g.live_neighbors x y = neighbor_count g.size g.previous x y := rfl

theorem rule_match_eq_b3s23 (a : Bool) (n : Nat) :
    (match a, n with
     | true, 0 | true, 1 => false
     | true, 2 | true, 3 => true
     | false, 3 => true
     | _, _ => false) = b3s23 a n := by
  cases a <;>
    match n with
    | 0 => rfl
    | 1 => rfl
    | 2 => rfl
    | 3 => rfl
    | n + 4 => rfl

theorem is_live_eq_b3s23 (g : Game) (x y : Nat) :
    g.is_live x y = b3s23 (get2 g.previous x y) (g.live_neighbors x y) :=
  rule_match_eq_b3s23 _ _

theorem get2_eq_false_of_length_le (b : List (List Bool)) (x y : Nat)
    (h : b.length ≤ x) : get2 b x y = false := by
  simp only [get2, List.getD_eq_getElem?_getD, List.getElem?_eq_none h]
  rfl

theorem length_set2 (b : List (List Bool)) (x y : Nat) (v : Bool) :
    (set2 b x y v).length = b.length := by
  unfold set2; exact List.length_set ..

theorem get2_set2_self (b : List (List Bool)) (x y : Nat) (v : Bool)
    (hx : x < b.length) (hy : y < (b.getD x []).length) :
    get2 (set2 b x y v) x y = v := by
  rw [List.getD_eq_getElem?_getD] at hy
  simp only [get2, set2, List.getD_eq_getElem?_getD]
  rw [List.getElem?_set_self (by simpa using hx)]
  simp only [Option.getD_some]
  rw [List.getElem?_set_self hy]
  rfl

theorem get2_set2_ne (b : List (List Bool)) (x y x' y' : Nat) (v : Bool)
    (h : x ≠ x' ∨ y ≠ y') :
    get2 (set2 b x' y' v) x y = get2 b x y := by
  by_cases hlen : x' < b.length
  · simp only [get2, set2, List.getD_eq_getElem?_getD]
    by_cases hx : x' = x
    · subst hx
      rcases h with h | h
      · exact absurd rfl h
      · rw [List.getElem?_set_self (by simpa using hlen)]
        simp only [Option.getD_some]
        rw [List.getElem?_set_ne (fun hy => h hy.symm)]
    · rw [List.getElem?_set_ne hx]
  · unfold set2
    rw [List.set_eq_of_length_le (Nat.le_of_not_lt hlen)]

theorem board_shape_set2 {w h : Nat} {b : List (List Bool)} (x y : Nat) (v : Bool)
    (hb : board_shape w h b) : board_shape w h (set2 b x y v) := by
  by_cases hx : x < b.length
  · obtain ⟨hlen, hcols⟩ := hb
    refine ⟨by rw [length_set2]; exact hlen, ?_⟩
    intro col hcol
    rcases List.mem_or_eq_of_mem_set hcol with hmem | rfl
    · exact hcols col hmem
    · rw [List.length_set]
      apply hcols
      rw [List.getD_eq_getElem?_getD, List.getElem?_eq_getElem hx]
      exact List.getElem_mem hx
  · unfold set2
    rw [List.set_eq_of_length_le (Nat.le_of_not_lt hx)]
    exact hb

theorem board_shape_clear_board {w h : Nat} {b : List (List Bool)}
    (hb : board_shape w h b) : board_shape w h (clear_board b) := by
  obtain ⟨hlen, hcols⟩ := hb
  constructor
  · simpa [clear_board] using hlen
  · intro col hcol
    simp only [clear_board, List.mem_map] at hcol
    obtain ⟨c, hc, rfl⟩ := hcol
    simpa using hcols c hc

theorem board_shape_make_board (w h : Nat) : board_shape w h (make_board w h) := by
  constructor
  · simp [make_board]
  · intro col hcol
    simp only [make_board, List.mem_replicate] at hcol
    simp [hcol.2]

theorem get2_clear_board (b : List (List Bool)) (x y : Nat) :
    get2 (clear_board b) x y = false := by
  simp only [get2, clear_board, List.getD_eq_getElem?_getD, List.getElem?_map]
  cases hb : b[x]? with
  | none => rfl
  | some col =>
    simp only [Option.map_some', Option.getD_some, List.getElem?_map]
    cases col[y]? <;> rfl

theorem all_dead_clear_board (b : List (List Bool)) : all_dead (clear_board b) :=
  fun x y => get2_clear_board b x y

theorem get2_make_board (w h x y : Nat) : get2 (make_board w h) x y = false := by
  simp only [get2, make_board, List.getD_eq_getElem?_getD, List.getElem?_replicate]
  by_cases hx : x < w
  · simp only [if_pos hx, Option.getD_some, List.getElem?_replicate]
    by_cases hy : y < h <;> simp [hy]
  · simp [hx]

theorem board_shape_getD_length {w h : Nat} {b : List (List Bool)} {x : Nat}
    (hb : board_shape w h b) (hx : x < w) : (b.getD x []).length = h := by
  obtain ⟨hlen, hcols⟩ := hb
  apply hcols
  rw [List.getD_eq_getElem?_getD, List.getElem?_eq_getElem (by omega)]
  exact List.getElem_mem _

theorem is_live_congr (g1 g2 : Game) (hs : g1.size = g2.size)
    (hp : g1.previous = g2.previous) (x y : Nat) :
    g1.is_live x y = g2.is_live x y := by
  simp only [Game.is_live, Game.live_neighbors, hs, hp]

/-! ### The repopulation loops of `iterate` -/

theorem fillRow_zero (x : Nat) (g : Game) : fillRow x g 0 = g := rfl

theorem fillRow_succ (x : Nat) (g : Game) (m : Nat) :
    fillRow x g (m + 1) =
      { fillRow x g m with
        current := set2 (fillRow x g m).current x m ((fillRow x g m).is_live x m) } := by
  unfold fillRow
  rw [List.range_succ, List.foldl_append]
  rfl

theorem fillAll_zero (g : Game) : fillAll g 0 = g := rfl

theorem fillAll_succ (g : Game) (n : Nat) :
    fillAll g (n + 1) = fillRow n (fillAll g n) (fillAll g n).size.y_size := by
  unfold fillAll
  rw [List.range_succ, List.foldl_append]
  rfl

theorem fillRow_previous (x : Nat) (g : Game) (m : Nat) :
    (fillRow x g m).previous = g.previous := by
  induction m with
  | zero => rfl
  | succ m ih => rw [fillRow_succ]; exact ih

theorem fillRow_size (x : Nat) (g : Game) (m : Nat) :
    (fillRow x g m).size = g.size := by
  induction m with
  | zero => rfl
  | succ m ih => rw [fillRow_succ]; exact ih

theorem fillRow_shape {w h : Nat} (x : Nat) (g : Game) (m : Nat)
    (hcur : board_shape w h g.current) :
    board_shape w h (fillRow x g m).current := by
  induction m with
  | zero => exact hcur
  | succ m ih => rw [fillRow_succ]; exact board_shape_set2 _ _ _ ih

theorem fillAll_previous (g : Game) (n : Nat) :
    (fillAll g n).previous = g.previous := by
  induction n with
  | zero => rfl
  | succ n ih => rw [fillAll_succ, fillRow_previous]; exact ih

theorem fillAll_size (g : Game) (n : Nat) :
    (fillAll g n).size = g.size := by
  induction n with
  | zero => rfl
  | succ n ih => rw [fillAll_succ, fillRow_size]; exact ih

theorem fillAll_shape {w h : Nat} (g : Game) (n : Nat)
    (hcur : board_shape w h g.current) :
    board_shape w h (fillAll g n).current := by
  induction n with
  | zero => exact hcur
  | succ n ih => rw [fillAll_succ]; exact fillRow_shape _ _ _ ih

theorem fillRow_get2 {w h : Nat} (x : Nat) (g : Game) (m : Nat)
    (hcur : board_shape w h g.current) (hx : x < w) (hm : m ≤ h) (x' y' : Nat) :
    get2 (fillRow x g m).current x' y' =
      if x' = x ∧ y' < m then g.is_live x y' else get2 g.current x' y' := by
  induction m with
  | zero => simp [fillRow_zero]
  | succ m ih =>
    have hGshape : board_shape w h (fillRow x g m).current := fillRow_shape x g m hcur
    rw [fillRow_succ]
    by_cases hc : x' = x ∧ y' = m
    · obtain ⟨rfl, rfl⟩ := hc
      rw [get2_set2_self _ _ _ _ (by rw [hGshape.1]; exact hx)
        (by rw [board_shape_getD_length hGshape hx]; omega)]
      rw [is_live_congr _ g (fillRow_size _ g _) (fillRow_previous _ g _)]
      rw [if_pos ⟨rfl, by omega⟩]
    · have hne : x' ≠ x ∨ y' ≠ m := by tauto
      rw [get2_set2_ne _ _ _ _ _ _ hne, ih (by omega)]
      split_ifs with h1 h2 h2
      · rfl
      · exact absurd ⟨h1.1, by omega⟩ h2
      · have hym : y' ≠ m := fun ym => hc ⟨h2.1, ym⟩
        exact absurd ⟨h2.1, by omega⟩ h1
      · rfl

theorem fillAll_get2 {w h : Nat} (g : Game) (n : Nat)
    (hcur : board_shape w h g.current) (hsz : g.size.y_size = h) (hn : n ≤ w) (x' y' : Nat) :
    get2 (fillAll g n).current x' y' =
      if x' < n ∧ y' < h then g.is_live x' y' else get2 g.current x' y' := by
  induction n with
  | zero => simp [fillAll_zero]
  | succ n ih =>
    have hsize : (fillAll g n).size = g.size := fillAll_size g n
    have hshape : board_shape w h (fillAll g n).current := fillAll_shape g n hcur
    rw [fillAll_succ,
      show (fillAll g n).size.y_size = h from by rw [hsize, hsz],
      fillRow_get2 n (fillAll g n) h hshape (by omega) (le_refl h) x' y',
      is_live_congr _ g hsize (fillAll_previous g n),
      ih (by omega)]
    split_ifs with h1 h2 h2 h3 h3
    · rw [h1.1]
    · exact absurd ⟨by omega, h1.2⟩ h2
    · rfl
    · exact absurd ⟨by omega, h2.2⟩ h3
    · exfalso
      by_cases hxn : x' = n
      · exact h1 ⟨hxn, h3.2⟩
      · exact h2 ⟨by omega, h3.2⟩
    · rfl

theorem iterate_def (g : Game) :
    g.iterate =
      fillAll { g with previous := g.current, current := clear_board g.previous }
        g.size.x_size := rfl

theorem iterate_size (g : Game) : (g.iterate).size = g.size := by
  rw [iterate_def, fillAll_size]

/-! ### Dead boards are absorbing -/

theorem get2_set2_cases (b : List (List Bool)) (x y x' y' : Nat) (v : Bool) :
    get2 (set2 b x y v) x' y' = get2 b x' y' ∨ get2 (set2 b x y v) x' y' = v := by
  by_cases hx : x' = x
  · by_cases hy : y' = y
    · rw [hx, hy]
      by_cases hlen : x < b.length
      · by_cases hrow : y < (b.getD x []).length
        · right; exact get2_set2_self b x y v hlen hrow
        · left
          unfold set2
          rw [List.set_eq_of_length_le (Nat.le_of_not_lt hrow)]
          simp only [get2, List.getD_eq_getElem?_getD]
          rw [List.getElem?_set_self (by simpa using hlen)]
          simp only [Option.getD_some]
      · left
        unfold set2
        rw [List.set_eq_of_length_le (Nat.le_of_not_lt hlen)]
    · left; exact get2_set2_ne b x' y' x y v (Or.inr hy)
  · left; exact get2_set2_ne b x' y' x y v (Or.inl hx)

theorem all_dead_set2 (b : List (List Bool)) (x y : Nat) (hb : all_dead b) :
    all_dead (set2 b x y false) := by
  intro x' y'
  rcases get2_set2_cases b x y x' y' false with h | h
  · rw [h]; exact hb x' y'
  · exact h

theorem is_live_all_dead (g : Game) (h : all_dead g.previous) (x y : Nat) :
    g.is_live x y = false := by
  have hn : g.live_neighbors x y = 0 := by
    simp [Game.live_neighbors, h _ _]
  rw [is_live_eq_b3s23, hn, h x y]
  rfl

theorem fillRow_all_dead (x : Nat) (g : Game) (m : Nat)
    (hval : ∀ y < m, g.is_live x y = false) (hcur : all_dead g.current) :
    all_dead (fillRow x g m).current := by
  induction m with
  | zero => exact hcur
  | succ m ih =>
    rw [fillRow_succ]
    show all_dead (set2 (fillRow x g m).current x m ((fillRow x g m).is_live x m))
    rw [is_live_congr _ g (fillRow_size x g m) (fillRow_previous x g m),
      hval m (by omega)]
    exact all_dead_set2 _ _ _ (ih (fun y hy => hval y (by omega)))

theorem fillAll_all_dead (g : Game) (n : Nat)
    (hval : ∀ x < n, ∀ y < g.size.y_size, g.is_live x y = false)
    (hcur : all_dead g.current) : all_dead (fillAll g n).current := by
  induction n with
  | zero => exact hcur
  | succ n ih =>
    rw [fillAll_succ]
    apply fillRow_all_dead
    · intro y hy
      rw [is_live_congr _ g (fillAll_size g n) (fillAll_previous g n)]
      refine hval n (by omega) y ?_
      rw [fillAll_size g n] at hy
      exact hy
    · exact ih (fun x hx y hy => hval x (by omega) y hy)

theorem iterate_all_dead (g : Game) (h : all_dead g.current) :
    all_dead (g.iterate).current := by
  rw [iterate_def]
  apply fillAll_all_dead
  · intro x _ y _
    exact is_live_all_dead _ h x y
  · intro x y
    exact get2_clear_board _ x y

/-! ### The seeding loop -/

theorem setPairs_shape {w h : Nat} (s : BoardSize) (cur : List (List Bool))
    (ps : List (Nat × Nat)) (hcur : board_shape w h cur) :
    board_shape w h (setPairs s cur ps).1 := by
  induction ps generalizing cur with
  | nil => exact hcur
  | cons p rest ih =>
    obtain ⟨x, y⟩ := p
    simp only [setPairs]
    split
    · exact hcur
    · split
      · exact ih _ (board_shape_set2 _ _ _ hcur)
      · exact hcur

theorem setPairs_previous_untouched (g : Game) (ps : List (Nat × Nat)) :
    ((g.set ps).1).previous = g.previous ∧ ((g.set ps).1).size = g.size :=
  ⟨rfl, rfl⟩

theorem setPairs_ok (s : BoardSize) (cur : List (List Bool)) (ps : List (Nat × Nat))
    (hcur : board_shape s.x_size s.y_size cur)
    (hps : ∀ p ∈ ps, p.1 < s.x_size ∧ p.2 < s.y_size) :
    (setPairs s cur ps).2 = none ∧
    ∀ x y, get2 (setPairs s cur ps).1 x y =
      (get2 cur x y || decide ((x, y) ∈ ps)) := by
  induction ps generalizing cur with
  | nil => exact ⟨rfl, fun x y => by simp [setPairs]⟩
  | cons p rest ih =>
    obtain ⟨a, b⟩ := p
    have hab := hps (a, b) (List.mem_cons_self _ _)
    have hrest : ∀ p ∈ rest, p.1 < s.x_size ∧ p.2 < s.y_size :=
      fun p hp => hps p (List.mem_cons_of_mem _ hp)
    have hstep : setPairs s cur ((a, b) :: rest) = setPairs s (set2 cur a b true) rest := by
      have h1 : ¬(a > s.x_size ∨ b > s.y_size) := by omega
      have h2 : a < cur.length := by rw [hcur.1]; exact hab.1
      have h3 : b < (cur.getD a []).length := by
        rw [board_shape_getD_length hcur hab.1]; exact hab.2
      have h3' : b < (cur[a]).length := by
        rw [List.getD_eq_getElem?_getD, List.getElem?_eq_getElem h2] at h3
        exact h3
      simp only [setPairs]
      rw [if_neg (by simpa using h1), if_pos (by simp [h2, h3'])]
    rw [hstep]
    obtain ⟨e, v⟩ := ih (set2 cur a b true) (board_shape_set2 _ _ _ hcur) hrest
    refine ⟨e, fun x y => ?_⟩
    rw [v x y]
    by_cases hm : (x, y) = (a, b)
    · have hx : x = a := congrArg Prod.fst hm
      have hy : y = b := congrArg Prod.snd hm
      rw [hx, hy,
        get2_set2_self cur a b true (by rw [hcur.1]; exact hab.1)
          (by rw [board_shape_getD_length hcur hab.1]; exact hab.2)]
      simp [List.mem_cons]
    · have hne : x ≠ a ∨ y ≠ b := by
        by_cases hxa : x = a
        · subst hxa
          exact Or.inr (fun hyb => hm (by rw [hyb]))
        · exact Or.inl hxa
      rw [get2_set2_ne cur x y a b true hne]
      simp [List.mem_cons, hm]

/-! ### The shape invariant over arbitrary operation sequences -/

/-- One public engine operation, for quantifying over call sequences. -/
inductive Op where
  | iterate : Op
  | run : Nat → Op
  | seed : List (Nat × Nat) → Op
  | reseed : List (Nat × Nat) → Op
  | wipe : Op
  | cell : Nat → Nat → Bool → Op

/-- Apply one public operation (`iterate`, `run`, `set`, `clear_and_set`,
`clear`, a `cell` write) to the game state. -/
def Game.apply (g : Game) : Op → Game
  | Op.iterate => g.iterate
  | Op.run n => g.run n
  | Op.seed ps => (g.set ps).1
  | Op.reseed ps => (g.clear_and_set ps).1
  | Op.wipe => g.clear
  | Op.cell x y v => g.cell_set x y v

/-- The internal invariant of a `Game` built by `new w h`: recorded extents
are `w` and `h` and both buffers are `w` columns of `h` cells. -/
def well_formed (w h : Nat) (g : Game) : Prop :=
  g.size.x_size = w ∧ g.size.y_size = h ∧
  board_shape w h g.previous ∧ board_shape w h g.current

theorem well_formed_iterate {w h : Nat} (g : Game) (hg : well_formed w h g) :
    well_formed w h g.iterate := by
  obtain ⟨h1, h2, hp, hc⟩ := hg
  rw [iterate_def]
  refine ⟨?_, ?_, ?_, ?_⟩
  · rw [fillAll_size]; exact h1
  · rw [fillAll_size]; exact h2
  · rw [fillAll_previous]; exact hc
  · exact fillAll_shape _ _ (board_shape_clear_board hp)

theorem well_formed_run {w h : Nat} (g : Game) (n : Nat) (hg : well_formed w h g) :
    well_formed w h (g.run n) := by
  induction n generalizing g with
  | zero => exact hg
  | succ n ih => exact ih _ (well_formed_iterate g hg)

theorem well_formed_set {w h : Nat} (g : Game) (ps : List (Nat × Nat))
    (hg : well_formed w h g) : well_formed w h (g.set ps).1 := by
  obtain ⟨h1, h2, hp, hc⟩ := hg
  exact ⟨h1, h2, hp, setPairs_shape _ _ _ hc⟩

theorem well_formed_clear_and_set {w h : Nat} (g : Game) (ps : List (Nat × Nat))
    (hg : well_formed w h g) : well_formed w h (g.clear_and_set ps).1 := by
  obtain ⟨h1, h2, hp, hc⟩ := hg
  exact ⟨h1, h2, board_shape_clear_board hp,
    setPairs_shape _ _ _ (board_shape_clear_board hc)⟩

theorem well_formed_clear {w h : Nat} (g : Game) (hg : well_formed w h g) :
    well_formed w h g.clear := by
  obtain ⟨h1, h2, hp, hc⟩ := hg
  exact ⟨h1, h2, board_shape_clear_board hp, board_shape_clear_board hc⟩

theorem well_formed_cell_set {w h : Nat} (g : Game) (x y : Nat) (v : Bool)
    (hg : well_formed w h g) : well_formed w h (g.cell_set x y v) := by
  obtain ⟨h1, h2, hp, hc⟩ := hg
  exact ⟨h1, h2, hp, board_shape_set2 _ _ _ hc⟩

theorem well_formed_apply {w h : Nat} (g : Game) (op : Op)
    (hg : well_formed w h g) : well_formed w h (g.apply op) := by
  cases op with
  | iterate => exact well_formed_iterate g hg
  | run n => exact well_formed_run g n hg
  | seed ps => exact well_formed_set g ps hg
  | reseed ps => exact well_formed_clear_and_set g ps hg
  | wipe => exact well_formed_clear g hg
  | cell x y v => exact well_formed_cell_set g x y v hg

theorem well_formed_foldl {w h : Nat} (ops : List Op) (g : Game)
    (hg : well_formed w h g) : well_formed w h (ops.foldl Game.apply g) := by
  induction ops generalizing g with
  | nil => exact hg
  | cons op rest ih => exact ih _ (well_formed_apply g op hg)

/-! ### Remaining helper lemmas -/

theorem wrap_dec_lt {e v : Nat} (hv : v < e) : wrap_dec e v < e := by
  unfold wrap_dec; split <;> omega

theorem wrap_inc_lt {e v : Nat} (hv : v < e) : wrap_inc e v < e := by
  unfold wrap_inc; split <;> omega

theorem is_live_one_one (g : Game) (h1 : g.size.x_size = 1)
    (h2 : g.size.y_size = 1) : g.is_live 0 0 = false := by
  cases hp : get2 g.previous 0 0 with
  | false =>
    have hn : g.live_neighbors 0 0 = 0 := by
      simp [Game.live_neighbors, BoardSize.top_left, BoardSize.top,
        BoardSize.top_right, BoardSize.left, BoardSize.right,
        BoardSize.bottom_left, BoardSize.bottom, BoardSize.bottom_right,
        h1, h2, hp]
    rw [is_live_eq_b3s23, hn, hp]; rfl
  | true =>
    have hn : g.live_neighbors 0 0 = 8 := by
      simp [Game.live_neighbors, BoardSize.top_left, BoardSize.top,
        BoardSize.top_right, BoardSize.left, BoardSize.right,
        BoardSize.bottom_left, BoardSize.bottom, BoardSize.bottom_right,
        h1, h2, hp]
    rw [is_live_eq_b3s23, hn, hp]; rfl

/-! ### The claims -/

/-- C1: for every grid state and coordinate, `is_live(x, y)` returns true
exactly when (the cell is alive in `previous` and its toroidal neighbor
count is 2 or 3) or (the cell is dead in `previous` and the count is
exactly 3); every other (alive, count) combination yields false (B3/S23). -/
theorem is_live_matches_b3s23 (g : Game) (x y : Nat) :
    g.is_live x y = true ↔
      ((get2 g.previous x y = true ∧
          (neighbor_count g.size g.previous x y = 2 ∨
           neighbor_count g.size g.previous x y = 3)) ∨
        (get2 g.previous x y = false ∧
         neighbor_count g.size g.previous x y = 3)) := by
  rw [is_live_eq_b3s23, ← live_neighbors_eq_neighbor_count]
  cases hp : get2 g.previous x y <;> simp [b3s23, hp]

/-- C2: after one `iterate`, every in-range cell of the current grid equals
the B3/S23 rule applied pointwise to the grid that was current immediately
before the step, with neighbor counts taken only from that pre-step grid. -/
theorem iterate_pointwise (g : Game)
    (hshape : board_shape g.size.x_size g.size.y_size g.previous)
    (x y : Nat) (hx : x < g.size.x_size) (hy : y < g.size.y_size) :
    get2 (g.iterate).current x y =
      b3s23 (get2 g.current x y) (neighbor_count g.size g.current x y) := by
  rw [iterate_def,
    fillAll_get2 { g with previous := g.current, current := clear_board g.previous }
      g.size.x_size (board_shape_clear_board hshape) rfl (le_refl _) x y,
    if_pos ⟨hx, hy⟩, is_live_eq_b3s23]
  rfl

theorem iterate_pointwise_witness :
    board_shape (Game.new 3 3).size.x_size (Game.new 3 3).size.y_size
        (Game.new 3 3).previous ∧
    (1 : Nat) < (Game.new 3 3).size.x_size ∧ (1 : Nat) < (Game.new 3 3).size.y_size ∧
    get2 ((Game.new 3 3).iterate).current 1 1 =
      b3s23 (get2 (Game.new 3 3).current 1 1)
        (neighbor_count (Game.new 3 3).size (Game.new 3 3).current 1 1) :=
  ⟨by decide, by decide, by decide,
   iterate_pointwise (Game.new 3 3) (by decide) 1 1 (by decide) (by decide)⟩

/-- C3 (code bug in the source): on a 2×2 board, the seed coordinate
`(2, 0)` — x exactly equal to the extent — passes the `x > x_size`
validation check and the operation dies only at the indexed write
(`SeedError.index`), instead of being rejected by the validation check
(`SeedError.validation`) as specified. -/
theorem set_extent_passes_validation :
    ((Game.new 2 2).set [(2, 0)]).2 = some SeedError.index ∧
    ((Game.new 2 2).set [(2, 0)]).2 ≠ some SeedError.validation := by
  decide

/-- C4 (code bug in the source): the seeding loop validates and mutates one
coordinate at a time, so on `set [(0,0), (3,0)]` over a 2×2 board the
validation failure at `(3, 0)` leaves the earlier coordinate `(0, 0)`
already marked alive — a partial mutation remains. -/
theorem set_partial_mutation :
    ((Game.new 2 2).set [(0, 0), (3, 0)]).2 = some SeedError.validation ∧
    get2 (((Game.new 2 2).set [(0, 0), (3, 0)]).1).current 0 0 = true := by
  decide

/-- C5: after one `iterate`, the previous buffer holds exactly the cell
values the current grid had immediately before the step: the swap is a
buffer-role exchange and the repopulation pass never writes `previous`. -/
theorem iterate_previous_holds_old_current (g : Game) :
    (g.iterate).previous = g.current := by
  rw [iterate_def, fillAll_previous]

/-- C6: each of the 8 neighbor functions applies, independently per moved
axis, the wrap rule (decrement from 0 gives extent−1, increment from
extent−1 gives 0, otherwise ±1), and the result is always in range. -/
theorem neighbors_wrap_in_range (s : BoardSize) (x y : Nat)
    (hx : x < s.x_size) (hy : y < s.y_size) :
    (s.top_left x y = (wrap_dec s.x_size x, wrap_dec s.y_size y) ∧
     s.top x y = (x, wrap_dec s.y_size y) ∧
     s.top_right x y = (wrap_inc s.x_size x, wrap_dec s.y_size y) ∧
     s.left x y = (wrap_dec s.x_size x, y) ∧
     s.right x y = (wrap_inc s.x_size x, y) ∧
     s.bottom_left x y = (wrap_dec s.x_size x, wrap_inc s.y_size y) ∧
     s.bottom x y = (x, wrap_inc s.y_size y) ∧
     s.bottom_right x y = (wrap_inc s.x_size x, wrap_inc s.y_size y)) ∧
    ∀ p ∈ [s.top_left x y, s.top x y, s.top_right x y, s.left x y,
           s.right x y, s.bottom_left x y, s.bottom x y, s.bottom_right x y],
      p.1 < s.x_size ∧ p.2 < s.y_size := by
  refine ⟨⟨rfl, rfl, rfl, rfl, rfl, rfl, rfl, rfl⟩, ?_⟩
  intro p hp
  simp only [List.mem_cons, List.not_mem_nil, or_false] at hp
  rcases hp with rfl | rfl | rfl | rfl | rfl | rfl | rfl | rfl
  · exact ⟨wrap_dec_lt hx, wrap_dec_lt hy⟩
  · exact ⟨hx, wrap_dec_lt hy⟩
  · exact ⟨wrap_inc_lt hx, wrap_dec_lt hy⟩
  · exact ⟨wrap_dec_lt hx, hy⟩
  · exact ⟨wrap_inc_lt hx, hy⟩
  · exact ⟨wrap_dec_lt hx, wrap_inc_lt hy⟩
  · exact ⟨hx, wrap_inc_lt hy⟩
  · exact ⟨wrap_inc_lt hx, wrap_inc_lt hy⟩

theorem neighbors_wrap_in_range_witness :
    ((0 : Nat) < (BoardSize.mk 2 3).x_size ∧ (1 : Nat) < (BoardSize.mk 2 3).y_size) ∧
    ∀ p ∈ [(BoardSize.mk 2 3).top_left 0 1, (BoardSize.mk 2 3).top 0 1,
           (BoardSize.mk 2 3).top_right 0 1, (BoardSize.mk 2 3).left 0 1,
           (BoardSize.mk 2 3).right 0 1, (BoardSize.mk 2 3).bottom_left 0 1,
           (BoardSize.mk 2 3).bottom 0 1, (BoardSize.mk 2 3).bottom_right 0 1],
      p.1 < (BoardSize.mk 2 3).x_size ∧ p.2 < (BoardSize.mk 2 3).y_size :=
  ⟨⟨by decide, by decide⟩,
   (neighbors_wrap_in_range ⟨2, 3⟩ 0 1 (by decide) (by decide)).2⟩

/-- C7: an all-dead current grid is absorbing: after any number of `step`
calls the current grid remains all-dead — no spontaneous birth. -/
theorem run_all_dead (g : Game) (n : Nat) (h : all_dead g.current) :
    all_dead ((g.run n).current) := by
  induction n generalizing g with
  | zero => exact h
  | succ n ih => exact ih (g.iterate) (iterate_all_dead g h)

theorem run_all_dead_witness :
    all_dead (Game.new 2 3).current ∧ all_dead (((Game.new 2 3).run 4).current) :=
  ⟨fun x y => get2_make_board 2 3 x y,
   run_all_dead (Game.new 2 3) 4 (fun x y => get2_make_board 2 3 x y)⟩

/-- C8: with in-range coordinate lists, two additive seeds from a fresh
board leave exactly the union alive; a resetting seed followed by an
additive seed leaves exactly the union of the two seeded sets alive, and a
resetting seed alone leaves exactly its own set alive with the previous
buffer wholly cleared. -/
theorem seed_additive_reset_union (w h : Nat) (A B : List (Nat × Nat)) (g : Game)
    (hA : ∀ p ∈ A, p.1 < w ∧ p.2 < h) (hB : ∀ p ∈ B, p.1 < w ∧ p.2 < h)
    (_hdisj : ∀ p ∈ A, p ∉ B)
    (hsize : g.size = ⟨w, h⟩)
    (hgp : board_shape w h g.previous) (hgc : board_shape w h g.current) :
    (((Game.new w h).set A).2 = none ∧
      ((((Game.new w h).set A).1).set B).2 = none ∧
      ∀ x y, get2 (((((Game.new w h).set A).1).set B).1).current x y = true ↔
        ((x, y) ∈ A ∨ (x, y) ∈ B)) ∧
    (∀ x y, get2 ((((g.clear_and_set A).1).set B).1).current x y = true ↔
        ((x, y) ∈ A ∨ (x, y) ∈ B)) ∧
    (∀ x y, get2 ((g.clear_and_set A).1).current x y = true ↔ (x, y) ∈ A) ∧
    all_dead ((g.clear_and_set A).1).previous := by
  obtain ⟨gs, gp, gc⟩ := g
  have hgs : gs = ⟨w, h⟩ := hsize
  subst hgs
  obtain ⟨eA, vA⟩ := setPairs_ok ⟨w, h⟩ (make_board w h) A
    (board_shape_make_board w h) hA
  have shapeA : board_shape w h (setPairs ⟨w, h⟩ (make_board w h) A).1 :=
    setPairs_shape ⟨w, h⟩ (make_board w h) A (board_shape_make_board w h)
  obtain ⟨eB, vB⟩ := setPairs_ok ⟨w, h⟩ (setPairs ⟨w, h⟩ (make_board w h) A).1 B
    shapeA hB
  obtain ⟨eA2, vA2⟩ := setPairs_ok ⟨w, h⟩ (clear_board gc) A
    (board_shape_clear_board hgc) hA
  have shapeA2 : board_shape w h (setPairs ⟨w, h⟩ (clear_board gc) A).1 :=
    setPairs_shape ⟨w, h⟩ (clear_board gc) A (board_shape_clear_board hgc)
  obtain ⟨eB2, vB2⟩ := setPairs_ok ⟨w, h⟩ (setPairs ⟨w, h⟩ (clear_board gc) A).1 B
    shapeA2 hB
  refine ⟨⟨eA, eB, fun x y => ?_⟩, fun x y => ?_, fun x y => ?_, ?_⟩
  · show get2 (setPairs ⟨w, h⟩ (setPairs ⟨w, h⟩ (make_board w h) A).1 B).1 x y = true ↔ _
    rw [vB x y, vA x y, get2_make_board]
    simp
  · show get2 (setPairs ⟨w, h⟩ (setPairs ⟨w, h⟩ (clear_board gc) A).1 B).1 x y = true ↔ _
    rw [vB2 x y, vA2 x y, get2_clear_board]
    simp
  · show get2 (setPairs ⟨w, h⟩ (clear_board gc) A).1 x y = true ↔ _
    rw [vA2 x y, get2_clear_board]
    simp
  · exact all_dead_clear_board gp

theorem seed_additive_reset_union_witness :
    ((∀ p ∈ [((0 : Nat), (0 : Nat))], p.1 < 2 ∧ p.2 < 2) ∧
     (∀ p ∈ [((1 : Nat), (1 : Nat))], p.1 < 2 ∧ p.2 < 2) ∧
     (∀ p ∈ [((0 : Nat), (0 : Nat))], p ∉ [((1 : Nat), (1 : Nat))]) ∧
     (Game.new 2 2).size = ⟨2, 2⟩ ∧
     board_shape 2 2 (Game.new 2 2).previous ∧
     board_shape 2 2 (Game.new 2 2).current) ∧
    (∀ x y,
      get2 (((((Game.new 2 2).set [(0, 0)]).1).set [(1, 1)]).1).current x y = true ↔
        ((x, y) ∈ [((0 : Nat), (0 : Nat))] ∨ (x, y) ∈ [((1 : Nat), (1 : Nat))])) :=
  ⟨⟨by decide, by decide, by decide, rfl, by decide, by decide⟩,
   (seed_additive_reset_union 2 2 [(0, 0)] [(1, 1)] (Game.new 2 2)
      (by decide) (by decide) (by decide) rfl (by decide) (by decide)).1.2.2⟩

/-- C9: starting from `new w h`, any sequence of public operations keeps
both buffers at exactly `w` columns of `h` cells each, and the recorded
dimensions never change. -/
theorem ops_preserve_shape (w h : Nat) (ops : List Op) :
    well_formed w h (ops.foldl Game.apply (Game.new w h)) ∧
    (ops.foldl Game.apply (Game.new w h)).dimensions = (w, h) := by
  have hwf := well_formed_foldl (w := w) (h := h) ops (Game.new w h)
    ⟨rfl, rfl, board_shape_make_board w h, board_shape_make_board w h⟩
  refine ⟨hwf, ?_⟩
  obtain ⟨h1, h2, -, -⟩ := hwf
  simp [Game.dimensions, h1, h2]

/-- C10: on a 1×1 grid every neighbor function returns (0, 0), a live cell
counts 8 live neighbors so `is_live` returns false, and after one `iterate`
the grid is all-dead regardless of its prior state. -/
theorem one_by_one_all_dead (g : Game) (h1 : g.size.x_size = 1)
    (h2 : g.size.y_size = 1) :
    (g.size.top_left 0 0 = (0, 0) ∧ g.size.top 0 0 = (0, 0) ∧
     g.size.top_right 0 0 = (0, 0) ∧ g.size.left 0 0 = (0, 0) ∧
     g.size.right 0 0 = (0, 0) ∧ g.size.bottom_left 0 0 = (0, 0) ∧
     g.size.bottom 0 0 = (0, 0) ∧ g.size.bottom_right 0 0 = (0, 0)) ∧
    (get2 g.previous 0 0 = true → g.live_neighbors 0 0 = 8) ∧
    g.is_live 0 0 = false ∧
    all_dead (g.iterate).current := by
  refine ⟨?_, ?_, is_live_one_one g h1 h2, ?_⟩
  · refine ⟨?_, ?_, ?_, ?_, ?_, ?_, ?_, ?_⟩ <;>
      simp [BoardSize.top_left, BoardSize.top, BoardSize.top_right,
        BoardSize.left, BoardSize.right, BoardSize.bottom_left,
        BoardSize.bottom, BoardSize.bottom_right, h1, h2]
  · intro hp
    simp [Game.live_neighbors, BoardSize.top_left, BoardSize.top,
      BoardSize.top_right, BoardSize.left, BoardSize.right,
      BoardSize.bottom_left, BoardSize.bottom, BoardSize.bottom_right,
      h1, h2, hp]
  · rw [iterate_def]
    apply fillAll_all_dead
    · intro x hx y hy
      have hx1 : x < 1 := by rw [← h1]; exact hx
      have hy1 : y < 1 := by rw [← h2]; exact hy
      have hx0 : x = 0 := by omega
      have hy0 : y = 0 := by omega
      subst hx0
      subst hy0
      exact is_live_one_one _ h1 h2
    · intro x y
      exact get2_clear_board _ x y

theorem one_by_one_all_dead_witness :
    ((Game.mk ⟨1, 1⟩ [[true]] [[true]]).size.x_size = 1 ∧
     (Game.mk ⟨1, 1⟩ [[true]] [[true]]).size.y_size = 1) ∧
    ((Game.mk ⟨1, 1⟩ [[true]] [[true]]).is_live 0 0 = false ∧
     all_dead ((Game.mk ⟨1, 1⟩ [[true]] [[true]]).iterate).current) :=
  ⟨⟨rfl, rfl⟩,
   ⟨(one_by_one_all_dead (Game.mk ⟨1, 1⟩ [[true]] [[true]]) rfl rfl).2.2.1,
    (one_by_one_all_dead (Game.mk ⟨1, 1⟩ [[true]] [[true]]) rfl rfl).2.2.2⟩⟩

end Gol
